import Mathlib

/-!
# Admission-controlled ingestion servers of the notification controller

A shallow embedding of `internal/server/event_server.go` and
`internal/server/receiver_server.go`: the two key functions, the rate-limit
middleware they are handed to, the in-memory counting store used by
`TestEventKeyFunc`, and the control flow of the two `ListenAndServe` methods.

## Conventions

* Go strings are byte sequences, so they are lists of bytes here; a string
  literal of the source is written `str "..."`, its UTF-8 encoding.
* Times are nanoseconds since the store was created, as `Nat`; `uint64`
  subtraction wraps at `2 ^ 64`.
* A function that mutates what a pointer refers to returns the new value:
  the key function returns the request it leaves behind, the middleware the
  store and the response recorder.

## Packages the two files import

The two source files call into packages that are not part of the repository.
Their functions are written out from the packages, under the packages' names:

* Go standard library: `strings.TrimLeft`, `url.PathEscape`, `ioutil.ReadAll`,
  `http.Header`, `http.Error`, `httptest.ResponseRecorder`,
  `textproto.CanonicalMIMEHeaderKey`, `strconv.FormatUint`;
* `k8s.io/api/core/v1`: `ObjectReference` and its generated `String` method;
* `github.com/fluxcd/pkg/recorder`: the `Event` record;
* `github.com/sethvargo/go-limiter`: `memorystore` (its locks left out, its
  purge goroutine run at the ticker's firing times) and `httplimit`.

Two functions are parameters instead: `json.Unmarshal` on event records, and
the RFC 1123 formatting of the reset time in the rate-limit headers.
-/

namespace NotificationController

/-! ## Go strings -/

/-- One byte of a Go string. -/
abbrev Byte := Fin 256

/-- Go `string`: an immutable sequence of bytes. -/
abbrev GoString := List Byte

/-- Go `error` values are only compared with nil here; they carry their text. -/
abbrev GoError := String

/-- UTF-8 encoding of the code point `n` (what the Go compiler stores for a
character of a string literal). -/
def utf8 (n : Nat) : List Byte :=
  if n < 128 then [Fin.ofNat n]
  else if n < 2048 then [Fin.ofNat (192 + n / 64), Fin.ofNat (128 + n % 64)]
  else if n < 65536 then
    [Fin.ofNat (224 + n / 4096), Fin.ofNat (128 + n / 64 % 64), Fin.ofNat (128 + n % 64)]
  else
    [Fin.ofNat (240 + n / 262144), Fin.ofNat (128 + n / 4096 % 64),
      Fin.ofNat (128 + n / 64 % 64), Fin.ofNat (128 + n % 64)]

/-- The bytes of a string literal. -/
def str (s : String) : GoString :=
  s.toList.flatMap (fun c => utf8 c.toNat)

/-- Go `strings.TrimLeft(s, cutset)` for a cutset of ASCII bytes (the only kind
the source passes): `trimLeftASCII` drops leading bytes of `s` while they are
members of the cutset. -/
def TrimLeft (s cutset : GoString) : GoString :=
  s.dropWhile (fun b => cutset.contains b)

/-- Go `strings.TrimPrefix(s, prefix)`: removes `prefix` once when `s` starts
with it. The source does not call it; it is what the specification describes. -/
def TrimPrefix (s pre : GoString) : GoString :=
  if pre.isPrefixOf s then s.drop pre.length else s

/-- The table `upperhex` of `net/url`: the upper-case hex digit of `n % 16`. -/
def upperhex (n : Nat) : Byte :=
  if n % 16 < 10 then Fin.ofNat (48 + n % 16) else Fin.ofNat (55 + n % 16)

/-- Is `c` an ASCII letter or digit (first test of `shouldEscape`)? -/
def isAlnum (c : Byte) : Bool :=
  (97 ≤ c.val && c.val ≤ 122) || (65 ≤ c.val && c.val ≤ 90) || (48 ≤ c.val && c.val ≤ 57)

/-- Go `net/url.shouldEscape(c, encodePathSegment)`. Unreserved characters are
kept; of the reserved ones `$ & + , / : ; = ? @` only `/ ; , ?` are escaped;
every other byte is escaped. -/
def shouldEscape (c : Byte) : Bool :=
  if isAlnum c then false
  else if c.val = 45 || c.val = 95 || c.val = 46 || c.val = 126 then false
  else if c.val = 36 || c.val = 38 || c.val = 43 || c.val = 44 || c.val = 47 || c.val = 58
      || c.val = 59 || c.val = 61 || c.val = 63 || c.val = 64 then
    c.val = 47 || c.val = 59 || c.val = 44 || c.val = 63
  else true

/-- One byte of `net/url.escape` in path-segment mode. -/
def escapeByte (c : Byte) : List Byte :=
  if shouldEscape c then [37, upperhex (c.val / 16), upperhex c.val] else [c]

/-- Go `url.PathEscape(s)`: every byte that `shouldEscape` selects becomes
`%XX`, the others are copied. -/
def PathEscape (s : GoString) : GoString :=
  s.flatMap escapeByte

/-! ## Requests -/

/-- The body of a request as a reader: the bytes it yields and the error, if
any, that reading ends with instead of EOF. -/
structure Body where
  data : GoString
  err : Option GoError
deriving DecidableEq, Repr

/-- Go `*http.Request`, the parts the key functions look at. -/
structure Request where
  RequestURI : GoString
  Body : Body
deriving DecidableEq, Repr

/-- Go `ioutil.ReadAll(r.Body)`: the bytes read and the error; the reader is
left drained. -/
def ReadAll (b : Body) : GoString × Option GoError × Body :=
  (b.data, b.err, { b with data := [] })

/-- Result of a key function `func(r *http.Request) (string, error)` together
with the request it leaves behind (the request is passed by pointer). -/
structure KeyResult where
  key : GoString
  err : Option GoError
  req : Request
deriving DecidableEq, Repr

/-- Go `httplimit.KeyFunc`. -/
abbrev KeyFunc := Request → KeyResult

/-! ## receiver_server.go -/

/-- Source `receiverKeyFunc` (receiver_server.go:84-87). -/
def receiverKeyFunc (r : Request) : KeyResult :=
  let digest := PathEscape (TrimLeft r.RequestURI (str "/hook/"))
  { key := str "receiver/" ++ digest, err := none, req := r }

/-! ## event_server.go: the event record and its key -/

/-- Kubernetes `corev1.ObjectReference` (the type of `Event.InvolvedObject`):
seven string fields. -/
structure ObjectReference where
  Kind : GoString
  Namespace : GoString
  Name : GoString
  UID : GoString
  APIVersion : GoString
  ResourceVersion : GoString
  FieldPath : GoString
deriving DecidableEq, Repr

/-- The generated method `(*ObjectReference).String` of `k8s.io/api/core/v1`:
`strings.Join` of the opening text, one `Field:value,` item per field in the
order below, and the closing brace. The receiver is dereferenced; only field
values are printed. -/
def ObjectReference.String (this : ObjectReference) : GoString :=
  str "&ObjectReference\x7b"
    ++ (str "Kind:" ++ this.Kind ++ str ",")
    ++ (str "Namespace:" ++ this.Namespace ++ str ",")
    ++ (str "Name:" ++ this.Name ++ str ",")
    ++ (str "UID:" ++ this.UID ++ str ",")
    ++ (str "APIVersion:" ++ this.APIVersion ++ str ",")
    ++ (str "ResourceVersion:" ++ this.ResourceVersion ++ str ",")
    ++ (str "FieldPath:" ++ this.FieldPath ++ str ",")
    ++ str "\x7d"

/-- The event record `recorder.Event` of `github.com/fluxcd/pkg/recorder`. The
timestamp is kept as the text it was given as. -/
structure Event where
  InvolvedObject : ObjectReference
  Severity : GoString
  Timestamp : GoString
  Message : GoString
  Reason : GoString
  Metadata : List (GoString × GoString)
  ReportingController : GoString
  ReportingInstance : GoString
deriving DecidableEq, Repr

/-- Go `json.Unmarshal(body, event)` into a fresh `recorder.Event`: the decoder
is a parameter of everything below, a function from the bytes of the body to
the decoded record or the decoding error. -/
abbrev Unmarshal := GoString → Except GoError Event

deriving instance DecidableEq for Except

/-- Source `eventKeyFunc` (event_server.go:86-100). The body is read to its
end, which drains it; a read error or a decoding error is returned with the
empty key; otherwise the key is `Sprintf("event/%s/%s", ...)` of the involved
object's string form and the severity. -/
def eventKeyFunc (unmarshal : Unmarshal) (r : Request) : KeyResult :=
  match ReadAll r.Body with
  | (_, some err, rest) => { key := [], err := some err, req := { r with Body := rest } }
  | (body, none, rest) =>
    match unmarshal body with
    | .error err => { key := [], err := some err, req := { r with Body := rest } }
    | .ok event =>
      { key := str "event/" ++ event.InvolvedObject.String ++ str "/" ++ event.Severity,
        err := none,
        req := { r with Body := rest } }

/-! ## net/http: the response recorder -/

/-- Go `http.Header`, a map from canonical header names to their values. -/
abbrev Header := List (GoString × List GoString)

/-- Token bytes of a header field name (`validHeaderFieldByte`): letters,
digits and ``!#$%&'*+-.^_`|~``. -/
def validHeaderFieldByte (c : Byte) : Bool :=
  isAlnum c || [33, 35, 36, 37, 38, 39, 42, 43, 45, 46, 94, 95, 96, 124, 126].contains c.val

/-- The loop of `canonicalMIMEHeaderKey`: upper case for the first letter and
for a letter after a dash, lower case for every other letter. -/
def canonicalLoop : Bool → List Byte → List Byte
  | _, [] => []
  | upper, c :: rest =>
    let c1 : Byte :=
      if upper && 97 ≤ c.val && c.val ≤ 122 then Fin.ofNat (c.val - 32)
      else if !upper && 65 ≤ c.val && c.val ≤ 90 then Fin.ofNat (c.val + 32)
      else c
    c1 :: canonicalLoop (c1.val == 45) rest

/-- Go `textproto.CanonicalMIMEHeaderKey`: a name with a non-token byte is
returned unchanged. -/
def CanonicalMIMEHeaderKey (s : GoString) : GoString :=
  if s.all validHeaderFieldByte then canonicalLoop true s else s

/-- Go `Header.Set`: the values of the canonical key are replaced by `[value]`. -/
def Header.Set (h : Header) (key value : GoString) : Header :=
  (CanonicalMIMEHeaderKey key, [value])
    :: h.filter (fun kv => kv.1 != CanonicalMIMEHeaderKey key)

/-- Go `Header.Get`: the first value of the canonical key, or the empty string. -/
def Header.Get (h : Header) (key : GoString) : GoString :=
  match h.find? (fun kv => kv.1 == CanonicalMIMEHeaderKey key) with
  | some (_, v :: _) => v
  | _ => []

/-- Go `httptest.ResponseRecorder`, the `http.ResponseWriter` of the test. -/
structure ResponseRecorder where
  Code : Nat
  HeaderMap : Header
  Body : GoString
  wroteHeader : Bool
deriving DecidableEq, Repr

/-- Go `httptest.NewRecorder()`. -/
def NewRecorder : ResponseRecorder :=
  { Code := 200, HeaderMap := [], Body := [], wroteHeader := false }

/-- Go `(*ResponseRecorder).WriteHeader`: only the first call sets the code. -/
def ResponseRecorder.WriteHeader (w : ResponseRecorder) (code : Nat) : ResponseRecorder :=
  if w.wroteHeader then w else { w with Code := code, wroteHeader := true }

/-- Go `(*ResponseRecorder).Write`: an implicit `WriteHeader(200)`, then the
bytes are appended to the body. -/
def ResponseRecorder.Write (w : ResponseRecorder) (buf : GoString) : ResponseRecorder :=
  let w1 := w.WriteHeader 200
  { w1 with Body := w1.Body ++ buf }

/-- Go `http.Error(w, error, code)`. -/
def Error (w : ResponseRecorder) (error : GoString) (code : Nat) : ResponseRecorder :=
  let w1 := { w with HeaderMap := w.HeaderMap.Set (str "Content-Type") (str "text/plain; charset=utf-8") }
  let w2 := { w1 with HeaderMap := w1.HeaderMap.Set (str "X-Content-Type-Options") (str "nosniff") }
  (w2.WriteHeader code).Write (error ++ str "\n")

/-- Go `http.StatusTooManyRequests`. -/
def StatusTooManyRequests : Nat := 429

/-- Go `http.StatusInternalServerError`. -/
def StatusInternalServerError : Nat := 500

/-- Go `http.StatusText`, the two entries the middleware asks for. -/
def StatusText (code : Nat) : GoString :=
  if code = 429 then str "Too Many Requests"
  else if code = 500 then str "Internal Server Error"
  else []

/-- Go `strconv.FormatUint(n, 10)`. -/
def FormatUint (n : Nat) : GoString :=
  (Nat.toDigits 10 n).map (fun c => Fin.ofNat c.toNat)

/-- Go `http.Handler`: what serving a request does to the response writer. -/
abbrev Handler := ResponseRecorder → Request → ResponseRecorder

/-! ## go-limiter: the in-memory store (`memorystore`) -/

namespace memorystore

/-- Go `memorystore.Config`: tokens per interval, the interval, how often the
purge of idle buckets runs, how long a bucket may be idle before the purge
deletes it (durations in nanoseconds), and the initial size of the map. A
field left out of the literal is zero, as in Go. -/
structure Config where
  Tokens : Nat
  Interval : Nat
  SweepInterval : Nat := 0
  SweepMinTTL : Nat := 0
  InitialAlloc : Nat := 0
deriving DecidableEq, Repr

/-- Go `memorystore.bucket`: the counter entry of one key. The field
`fillRate` of the source is `interval / maxTokens` and is computed where it
is used. -/
structure bucket where
  startTime : Nat
  maxTokens : Nat
  interval : Nat
  availableTokens : Nat
  lastTick : Nat
deriving DecidableEq, Repr

/-- Go `memorystore.store`: the limit, the window, the two settings of the
purge, and the map from key to bucket. `swept` counts the firings of the purge
ticker that have been applied to the map. Times are nanoseconds since the
store was created. -/
structure store where
  tokens : Nat
  interval : Nat
  sweepInterval : Nat
  sweepMinTTL : Nat
  swept : Nat
  data : GoString → Option bucket

/-- Go `memorystore.New`: a zero `Tokens` means one token, a zero `Interval`
one second, a zero `SweepInterval` 6 hours, a zero `SweepMinTTL` 12 hours; the
map starts empty and the purge goroutine is started (its ticker has not fired
yet). -/
def New (c : Config) : store :=
  { tokens := if c.Tokens > 0 then c.Tokens else 1,
    interval := if c.Interval > 0 then c.Interval else 1000000000,
    sweepInterval := if c.SweepInterval > 0 then c.SweepInterval else 21600000000000,
    sweepMinTTL := if c.SweepMinTTL > 0 then c.SweepMinTTL else 43200000000000,
    swept := 0,
    data := fun _ => none }

/-- Go `newBucket(tokens, interval)`, created at time `now`. -/
def newBucket (tokens interval now : Nat) : bucket :=
  { startTime := now, maxTokens := tokens, interval := interval,
    availableTokens := tokens, lastTick := 0 }

/-- Go `tick(start, curr, interval)`: `(curr - start) / interval` on `uint64`. -/
def tick (start curr interval : Nat) : Nat :=
  ((curr + 2 ^ 64 - start) % 2 ^ 64) / interval

/-- Go `availableTokens(last, curr, max, fillRate)`: the ticks since the last
take times the fill rate `interval / max`, capped at `max`. The source
multiplies in `float64`; here the quotient is exact and rounded down. -/
def availableTokens (last curr max interval : Nat) : Nat :=
  min max ((curr - last) * interval / max)

/-- What `Take` reports: the limit, the tokens remaining, the time the window
resets, and whether the request is allowed. -/
structure Taken where
  limit : Nat
  remaining : Nat
  reset : Nat
  ok : Bool
deriving DecidableEq, Repr

/-- Go `(*bucket).take` at time `now`: on a new tick the tokens are set to
`availableTokens`; a token is taken when one is available. -/
def bucket.take (b : bucket) (now : Nat) : bucket × Taken :=
  let currTick := tick b.startTime now b.interval
  let next := b.startTime + (currTick + 1) * b.interval
  let b1 : bucket :=
    if b.lastTick < currTick then
      { b with
        availableTokens := memorystore.availableTokens b.lastTick currTick b.maxTokens b.interval,
        lastTick := currTick }
    else b
  if b1.availableTokens > 0 then
    ({ b1 with availableTokens := b1.availableTokens - 1 },
      { limit := b1.maxTokens, remaining := b1.availableTokens - 1, reset := next, ok := true })
  else
    (b1, { limit := b1.maxTokens, remaining := 0, reset := next, ok := false })

/-- Go `(*store).Take(key)` at time `now`: the bucket of the key is created on
first use, then one take is made from it. -/
def store.Take (s : store) (now : Nat) (key : GoString) : store × Taken :=
  let b := match s.data key with
    | some b => b
    | none => newBucket s.tokens s.interval now
  let (b1, t) := b.take now
  ({ s with data := Function.update s.data key (some b1) }, t)

/-- One pass of the loop body of Go `(*store).purge` at time `now`: a bucket
is deleted when `now - lastTime > sweepMinTTL` on `uint64`, where `lastTime`
is `startTime + lastTick * interval`. -/
def store.purge (s : store) (now : Nat) : store :=
  { s with
    data := fun k =>
      match s.data k with
      | some b =>
        if (now + 2 ^ 64 - (b.startTime + b.lastTick * b.interval) % 2 ^ 64) % 2 ^ 64
            > s.sweepMinTTL then none
        else some b
      | none => none }

/-- The purge goroutine up to time `now`: its ticker fires `sweepInterval`,
`2 * sweepInterval`, ... after the store was created, and each firing runs one
pass. The map changes only when a request is served, so of the firings since
the last request only the latest one matters: what an earlier firing deletes,
the latest deletes too. A firing at the very time of a request goes first. -/
def store.sweep (s : store) (now : Nat) : store :=
  if s.swept < now / s.sweepInterval then
    { s.purge (now / s.sweepInterval * s.sweepInterval) with swept := now / s.sweepInterval }
  else s

end memorystore

/-! ## go-limiter: the HTTP middleware (`httplimit`) -/

namespace httplimit

/-- Go `httplimit.Middleware`; the store it points to is passed as state. -/
structure Middleware where
  keyFunc : KeyFunc

/-- Header names of `httplimit`. -/
def HeaderRateLimitLimit : GoString := str "X-RateLimit-Limit"

/-- Header name of the remaining quota. -/
def HeaderRateLimitRemaining : GoString := str "X-RateLimit-Remaining"

/-- Header name of the reset time. -/
def HeaderRateLimitReset : GoString := str "X-RateLimit-Reset"

/-- Header name of the retry time. -/
def HeaderRetryAfter : GoString := str "Retry-After"

/-- What serving one request through the middleware leaves behind: the store,
the response, and the requests handed to the wrapped handler. -/
structure Served where
  store : memorystore.store
  w : ResponseRecorder
  next : List Request

/-- Go `(*Middleware).Handle(next)` serving request `r` at time `now`. A key
function error is answered 500 before the store is touched; otherwise one take
is made, the three rate-limit headers are set, and the request is either
answered 429 or passed on to `next`. `rfc1123` formats the reset time
(`time.Unix(0, reset).UTC().Format(time.RFC1123)`). -/
def Middleware.Handle (m : Middleware) (next : Handler) (rfc1123 : Nat → GoString)
    (now : Nat) (s : memorystore.store) (w : ResponseRecorder) (r : Request) : Served :=
  let k := m.keyFunc r
  match k.err with
  | some _ =>
    { store := s,
      w := Error w (StatusText StatusInternalServerError) StatusInternalServerError,
      next := [] }
  | none =>
    let (s1, t) := s.Take now k.key
    let resetTime := rfc1123 t.reset
    let h1 := w.HeaderMap.Set HeaderRateLimitLimit (FormatUint t.limit)
    let h2 := h1.Set HeaderRateLimitRemaining (FormatUint t.remaining)
    let h3 := h2.Set HeaderRateLimitReset resetTime
    if !t.ok then
      { store := s1,
        w := Error { w with HeaderMap := h3.Set HeaderRetryAfter resetTime }
          (StatusText StatusTooManyRequests) StatusTooManyRequests,
        next := [] }
    else
      { store := s1, w := next { w with HeaderMap := h3 } k.req, next := [k.req] }

end httplimit

/-- Requests served one after another, each at its arrival time and each with a
fresh recorder, as the loop of `TestEventKeyFunc` does. Before a request is
served the firings of the purge ticker up to its arrival time are applied. -/
def serveEach (m : httplimit.Middleware) (next : Handler) (rfc1123 : Nat → GoString) :
    memorystore.store → List (Nat × Request) → List httplimit.Served
  | _, [] => []
  | s, (now, r) :: rest =>
    let o := m.Handle next rfc1123 now (s.sweep now) NewRecorder r
    o :: serveEach m next rfc1123 o.store rest

/-- How many of the first `i` requests of `reqs` have the key `k` under the key
function `f`. -/
def earlier (f : KeyFunc) (reqs : List (Nat × Request)) (i : Nat) (k : GoString) : Nat :=
  ((reqs.take i).map (fun tr => (f tr.2).key)).count k

/-- The request's body is readable and `json.Unmarshal` decodes it as the
record `e`. -/
def Decodes (unmarshal : Unmarshal) (r : Request) (e : Event) : Prop :=
  r.Body.err = none ∧ unmarshal r.Body.data = .ok e

/-- The byte `,` that `ObjectReference.String` puts after each field. -/
def comma : Byte := 44

/-- No field of the reference contains a comma. -/
def CommaFree (o : ObjectReference) : Prop :=
  comma ∉ o.Kind ∧ comma ∉ o.Namespace ∧ comma ∉ o.Name ∧ comma ∉ o.UID ∧
    comma ∉ o.APIVersion ∧ comma ∉ o.ResourceVersion ∧ comma ∉ o.FieldPath

namespace memorystore

/-- State of a store whose window is not longer than its time-to-live, in
which every bucket was created inside the window that starts at `T`, before
the next firing of the purge ticker, has not been refilled, and has given out
one token for each of the `cnt k` requests seen for its key `k` as long as
tokens lasted. -/
def Inv (N I T tmax : Nat) (cnt : GoString → Nat) (s : store) : Prop :=
  s.tokens = N ∧ s.interval = I ∧ I ≤ s.sweepMinTTL ∧ 0 < s.sweepInterval ∧
    (∀ k, s.data k = none → cnt k = 0) ∧
    ∀ k b, s.data k = some b →
      b.maxTokens = N ∧ b.interval = I ∧ b.lastTick = 0 ∧ T ≤ b.startTime ∧
        b.startTime ≤ tmax ∧ b.startTime < (s.swept + 1) * s.sweepInterval ∧
        b.availableTokens = N - cnt k

end memorystore

/-! ## The listener lifecycle (`ListenAndServe`) -/

/-- Go `time.Second`, in nanoseconds. -/
def Second : Nat := 1000000000

/-- JSON text of a string that needs no escaping. -/
def jsonString (s : GoString) : GoString :=
  str "\"" ++ s ++ str "\""

/-- JSON text of an event record, the involved object first. -/
def eventJSON (e : Event) : GoString :=
  str "\x7b\"involvedObject\":\x7b\"kind\":" ++ jsonString e.InvolvedObject.Kind
    ++ str ",\"namespace\":" ++ jsonString e.InvolvedObject.Namespace
    ++ str ",\"name\":" ++ jsonString e.InvolvedObject.Name
    ++ str ",\"uid\":" ++ jsonString e.InvolvedObject.UID
    ++ str ",\"apiVersion\":" ++ jsonString e.InvolvedObject.APIVersion
    ++ str ",\"resourceVersion\":" ++ jsonString e.InvolvedObject.ResourceVersion
    ++ str ",\"fieldPath\":" ++ jsonString e.InvolvedObject.FieldPath
    ++ str "\x7d,\"severity\":" ++ jsonString e.Severity
    ++ str ",\"message\":" ++ jsonString e.Message ++ str "\x7d"

/-- JSON text of the same record with the fields in another order. -/
def eventJSONSeverityFirst (e : Event) : GoString :=
  str "\x7b\"message\":" ++ jsonString e.Message
    ++ str ",\"severity\":" ++ jsonString e.Severity
    ++ str ",\"involvedObject\":\x7b\"fieldPath\":" ++ jsonString e.InvolvedObject.FieldPath
    ++ str ",\"resourceVersion\":" ++ jsonString e.InvolvedObject.ResourceVersion
    ++ str ",\"apiVersion\":" ++ jsonString e.InvolvedObject.APIVersion
    ++ str ",\"uid\":" ++ jsonString e.InvolvedObject.UID
    ++ str ",\"name\":" ++ jsonString e.InvolvedObject.Name
    ++ str ",\"namespace\":" ++ jsonString e.InvolvedObject.Namespace
    ++ str ",\"kind\":" ++ jsonString e.InvolvedObject.Kind ++ str "\x7d\x7d"

/-- The involved objects of the test table: a Kustomization whose name and
namespace are both `n`. -/
def testObject (n : GoString) : ObjectReference :=
  { Kind := str "Kustomization", Namespace := n, Name := n, UID := [],
    APIVersion := str "kustomize.toolkit.fluxcd.io/v1beta1",
    ResourceVersion := [], FieldPath := [] }

/-- An event with the given involved object, severity and message. -/
def mkEvent (o : ObjectReference) (severity message : GoString) : Event :=
  { InvolvedObject := o, Severity := severity, Timestamp := [], Message := message,
    Reason := [], Metadata := [], ReportingController := [], ReportingInstance := [] }

/-- Go `recorder.EventSeverityInfo`. -/
def EventSeverityInfo : GoString := str "info"

/-- Go `recorder.EventSeverityError`. -/
def EventSeverityError : GoString := str "error"

/-- Reference with namespace `apps,Name:web` and name `api`. -/
def commaInNamespace : ObjectReference :=
  { testObject [] with Namespace := str "apps,Name:web", Name := str "api" }

/-- Reference with namespace `apps` and name `web,Name:api`. -/
def commaInName : ObjectReference :=
  { testObject [] with Namespace := str "apps", Name := str "web,Name:api" }

/-- The object `1` of the test table at resource version `v`. -/
def atRevision (v : GoString) : ObjectReference :=
  { testObject (str "1") with ResourceVersion := v }

/-- The bodies of the examples with the records they decode to. -/
def sampleTable : List (GoString × Event) :=
  (eventJSONSeverityFirst (mkEvent (testObject (str "1")) EventSeverityInfo (str "Health check passed")),
      mkEvent (testObject (str "1")) EventSeverityInfo (str "Health check passed"))
  :: [mkEvent (testObject (str "1")) EventSeverityInfo [],
      mkEvent (testObject (str "1")) EventSeverityError [],
      mkEvent (testObject (str "2")) EventSeverityInfo [],
      mkEvent (testObject (str "3")) EventSeverityInfo [],
      mkEvent commaInNamespace EventSeverityInfo [],
      mkEvent commaInName EventSeverityInfo [],
      mkEvent (atRevision (str "41")) EventSeverityInfo [],
      mkEvent (atRevision (str "42")) EventSeverityInfo []].map (fun e => (eventJSON e, e))

/-- The values of `json.Unmarshal` at the bodies of the examples: the record of
`sampleTable` for a body listed there, and the decoder's error for the empty
body. Bodies outside the examples are not meant to be given to it. -/
def sampleUnmarshal : Unmarshal := fun body =>
  match sampleTable.find? (fun be => be.1 == body) with
  | some be => .ok be.2
  | none => .error "unexpected end of JSON input"

/-- A POST to `/` carrying `body`, as `httptest.NewRequest` builds it. -/
def post (body : GoString) : Request :=
  { RequestURI := str "/", Body := { data := body, err := none } }

/-- A POST to `/` whose body fails while it is read. -/
def postUnreadable : Request :=
  { RequestURI := str "/", Body := { data := [], err := some "unexpected EOF" } }

/-- A webhook request with the given request URI. -/
def hook (uri : GoString) : Request :=
  { RequestURI := uri, Body := { data := [], err := none } }

/-- The wrapped handler of the test: `w.WriteHeader(http.StatusOK)`. -/
def testHandler : Handler := fun w _ => w.WriteHeader 200

/-- The store of the test: `memorystore.New` with a 10 minute interval and no
token count, which makes the limit one request per key. -/
def testStore : memorystore.store :=
  memorystore.New { Tokens := 0, Interval := 600 * Second }

/-- A store with a window of 24 hours and the default purge: a pass every 6
hours, deleting buckets idle for more than 12 hours. -/
def dayStore : memorystore.store :=
  memorystore.New { Tokens := 0, Interval := 24 * 3600 * Second }

/-- The first row of the test table sent twice, 1 hour and 20 hours after the
store `dayStore` was created. -/
def dayRows : List (Nat × Request) :=
  [(1 * 3600 * Second, post (eventJSON (mkEvent (testObject (str "1")) EventSeverityInfo []))),
   (20 * 3600 * Second, post (eventJSON (mkEvent (testObject (str "1")) EventSeverityInfo [])))]

/-- The first four rows of the test table, one second apart. -/
def testRows : List (Nat × Request) :=
  [(0, post (eventJSON (mkEvent (testObject (str "1")) EventSeverityInfo []))),
   (1 * Second, post (eventJSON (mkEvent (testObject (str "1")) EventSeverityInfo []))),
   (2 * Second, post (eventJSON (mkEvent (testObject (str "1")) EventSeverityError []))),
   (3 * Second, post (eventJSON (mkEvent (testObject (str "1")) EventSeverityInfo [])))]

set_option maxRecDepth 100000

/-! ## The store inside one window -/

namespace memorystore

theorem tick_eq_zero (start now I : Nat) (h1 : start ≤ now) (h2 : now < start + I)
    (h3 : now < 2 ^ 64) : tick start now I = 0 := by
  unfold tick
  have h : (now + 2 ^ 64 - start) % 2 ^ 64 = now - start := by
    have e : now + 2 ^ 64 - start = (now - start) + 2 ^ 64 := by omega
    rw [e, Nat.add_mod_right]
    exact Nat.mod_eq_of_lt (by omega)
  rw [h]
  exact Nat.div_eq_of_lt (by omega)

theorem New_sweepInterval_pos (c : Config) : 0 < (New c).sweepInterval := by
  unfold New
  by_cases h : c.SweepInterval > 0
  · simp [h]
  · simp [h]

theorem Inv_New (c : Config) (T tmax : Nat) (hTTL : (New c).interval ≤ (New c).sweepMinTTL) :
    Inv (New c).tokens (New c).interval T tmax (fun _ => 0) (New c) := by
  refine ⟨rfl, rfl, hTTL, New_sweepInterval_pos c, fun _ _ => rfl, ?_⟩
  intro k b h
  simp [New] at h

theorem lt_succ_div_mul (now d : Nat) (hd : 0 < d) : now < (now / d + 1) * d := by
  have h1 := Nat.div_add_mod now d
  have h2 := Nat.mod_lt now hd
  rw [Nat.add_mul, Nat.one_mul, Nat.mul_comm]
  omega

/-- The firings of the purge ticker up to a request inside the window delete
no bucket: every bucket is younger than the window, and the window is not
longer than the time-to-live. -/
theorem sweep_in_window (N I T tmax now : Nat) (cnt : GoString → Nat) (s : store)
    (hinv : Inv N I T tmax cnt s) (hmax : tmax ≤ now) (hw : now < T + I) (hc : now < 2 ^ 64) :
    Inv N I T tmax cnt (s.sweep now) ∧
      now < ((s.sweep now).swept + 1) * (s.sweep now).sweepInterval := by
  obtain ⟨htok, hint, httl, hsi, hnone, hsome⟩ := hinv
  unfold store.sweep
  by_cases h : s.swept < now / s.sweepInterval
  · rw [if_pos h]
    have hle : (s.swept + 1) * s.sweepInterval ≤ now / s.sweepInterval * s.sweepInterval :=
      Nat.mul_le_mul_right _ h
    have hτ : now / s.sweepInterval * s.sweepInterval ≤ now := Nat.div_mul_le_self _ _
    have hdata : (s.purge (now / s.sweepInterval * s.sweepInterval)).data = s.data := by
      funext k
      unfold store.purge
      cases hk : s.data k with
      | none => simp [hk]
      | some b =>
        obtain ⟨_, _, a3, a4, _, a6, _⟩ := hsome k b hk
        have e1 : (b.startTime + b.lastTick * b.interval) % 2 ^ 64 = b.startTime := by
          rw [a3, Nat.zero_mul, Nat.add_zero]
          exact Nat.mod_eq_of_lt (by omega)
        have e2 : (now / s.sweepInterval * s.sweepInterval + 2 ^ 64 - b.startTime) % 2 ^ 64
            = now / s.sweepInterval * s.sweepInterval - b.startTime := by
          have e : now / s.sweepInterval * s.sweepInterval + 2 ^ 64 - b.startTime
              = (now / s.sweepInterval * s.sweepInterval - b.startTime) + 2 ^ 64 := by omega
          rw [e, Nat.add_mod_right]
          exact Nat.mod_eq_of_lt (by omega)
        have e3 : ¬ (now / s.sweepInterval * s.sweepInterval - b.startTime > s.sweepMinTTL) := by
          omega
        simp only [hk, e1, e2, e3, if_false]
    refine ⟨⟨htok, hint, httl, hsi, ?_, ?_⟩, lt_succ_div_mul now s.sweepInterval hsi⟩
    · intro k hk
      exact hnone k (by rw [← hdata]; exact hk)
    · intro k b hk
      have hk2 : s.data k = some b := by rw [← hdata]; exact hk
      obtain ⟨a1, a2, a3, a4, a5, a6, a7⟩ := hsome k b hk2
      refine ⟨a1, a2, a3, a4, a5, ?_, a7⟩
      have := lt_succ_div_mul now s.sweepInterval hsi
      show b.startTime < (now / s.sweepInterval + 1) * s.sweepInterval
      omega
  · rw [if_neg h]
    refine ⟨⟨htok, hint, httl, hsi, hnone, hsome⟩, ?_⟩
    have h1 := lt_succ_div_mul now s.sweepInterval hsi
    have h2 : (now / s.sweepInterval + 1) * s.sweepInterval ≤ (s.swept + 1) * s.sweepInterval :=
      Nat.mul_le_mul_right _ (by omega)
    omega

theorem bucket_take_in_window (b : bucket) (now I : Nat) (h0 : b.lastTick = 0) (hI : b.interval = I)
    (h1 : b.startTime ≤ now) (h2 : now < b.startTime + I) (h3 : now < 2 ^ 64) :
    b.take now =
      if b.availableTokens > 0 then
        ({ b with availableTokens := b.availableTokens - 1 },
          { limit := b.maxTokens, remaining := b.availableTokens - 1,
            reset := b.startTime + (0 + 1) * b.interval, ok := true })
      else
        (b, { limit := b.maxTokens, remaining := 0,
              reset := b.startTime + (0 + 1) * b.interval, ok := false }) := by
  have ht : tick b.startTime now b.interval = 0 := by
    rw [hI]; exact tick_eq_zero _ _ _ h1 h2 h3
  unfold bucket.take
  simp only [ht, h0, Nat.lt_irrefl, if_false]

/-- One take inside the window: it is allowed exactly when fewer than `N`
requests were seen for the key, and the invariant goes on with the key counted
once more. -/
theorem store_Take_in_window (N I T tmax now : Nat) (cnt : GoString → Nat) (s : store) (k : GoString)
    (hinv : Inv N I T tmax cnt s) (hT : T ≤ now) (hmax : tmax ≤ now) (hw : now < T + I)
    (hc : now < 2 ^ 64) (hnew : now < (s.swept + 1) * s.sweepInterval) :
    ((s.Take now k).2.ok = decide (cnt k < N)) ∧
    ((s.Take now k).2.limit = N) ∧
    (¬ cnt k < N → (s.Take now k).2.remaining = 0) ∧
    Inv N I T now (fun x => if x = k then cnt x + 1 else cnt x) (s.Take now k).1 := by
  obtain ⟨htok, hint, httl, hsi, hnone, hsome⟩ := hinv
  -- the bucket the take is made from
  have key : ∃ b : bucket, (match s.data k with
        | some b => b
        | none => newBucket s.tokens s.interval now) = b ∧
      b.maxTokens = N ∧ b.interval = I ∧ b.lastTick = 0 ∧ T ≤ b.startTime ∧
        b.startTime ≤ now ∧ b.startTime < (s.swept + 1) * s.sweepInterval ∧
        b.availableTokens = N - cnt k := by
    cases hk : s.data k with
    | none =>
      refine ⟨_, rfl, ?_⟩
      simp [newBucket, htok, hint, hT, hnone k hk, hnew]
    | some b =>
      obtain ⟨a1, a2, a3, a4, a5, a6, a7⟩ := hsome k b hk
      exact ⟨b, rfl, a1, a2, a3, a4, le_trans a5 hmax, a6, a7⟩
  obtain ⟨b, hb, b1, b2, b3, b4, b5, b7, b6⟩ := key
  have htake := bucket_take_in_window b now I b3 b2 b5 (by omega) hc
  have hT : s.Take now k =
      ({ s with data := Function.update s.data k (some (b.take now).1) }, (b.take now).2) := by
    unfold store.Take
    simp only [hb]
  rw [hT]
  by_cases hav : cnt k < N
  · have hpos : b.availableTokens > 0 := by omega
    rw [htake, if_pos hpos]
    refine ⟨by simp [hav], by simp [b1], fun h => absurd hav h, htok, hint, httl, hsi, ?_, ?_⟩
    · intro x hx
      by_cases hxk : x = k
      · subst hxk; simp at hx
      · simp [Function.update_noteq hxk] at hx
        simp [hxk, hnone x hx]
    · intro x bx hx
      by_cases hxk : x = k
      · subst hxk
        simp at hx
        subst hx
        simp [b1, b2, b3, b4, b5, b6, b7]
        omega
      · simp [Function.update_noteq hxk] at hx
        obtain ⟨a1, a2, a3, a4, a5, a6, a7⟩ := hsome x bx hx
        simp [hxk, a1, a2, a3, a4, a6, a7]
        omega
  · have hpos : ¬ b.availableTokens > 0 := by omega
    rw [htake, if_neg hpos]
    refine ⟨by simp [hav], by simp [b1], fun _ => rfl, htok, hint, httl, hsi, ?_, ?_⟩
    · intro x hx
      by_cases hxk : x = k
      · subst hxk; simp at hx
      · simp [Function.update_noteq hxk] at hx
        simp [hxk, hnone x hx]
    · intro x bx hx
      by_cases hxk : x = k
      · subst hxk
        simp at hx
        subst hx
        simp [b1, b2, b3, b4, b5, b6, b7]
        omega
      · simp [Function.update_noteq hxk] at hx
        obtain ⟨a1, a2, a3, a4, a5, a6, a7⟩ := hsome x bx hx
        simp [hxk, a1, a2, a3, a4, a6, a7]
        omega

end memorystore


/-! ## The middleware on one request -/

theorem Header.find_filter (h : Header) (c c2 : GoString) (hk : c ≠ c2) :
    List.find? (fun kv => kv.1 == c2) (h.filter (fun kv => kv.1 != c)) =
      List.find? (fun kv => kv.1 == c2) h := by
  induction h with
  | nil => rfl
  | cons a t ih =>
    by_cases h1 : a.1 = c
    · have h2 : ¬ a.1 = c2 := fun h2 => hk (h1.symm.trans h2)
      simp [List.filter_cons, List.find?_cons, h1, hk, ih]
    · by_cases h2 : a.1 = c2
      · have h3 : ¬ c2 = c := fun h => hk h.symm
        simp [List.filter_cons, List.find?_cons, h2, h3]
      · simp [List.filter_cons, List.find?_cons, h1, h2, ih]

theorem Header.Get_Set (h : Header) (k v k2 : GoString) :
    (Header.Set h k v).Get k2 =
      if CanonicalMIMEHeaderKey k = CanonicalMIMEHeaderKey k2 then v else Header.Get h k2 := by
  unfold Header.Set Header.Get
  by_cases hk : CanonicalMIMEHeaderKey k = CanonicalMIMEHeaderKey k2
  · simp [hk]
  · rw [if_neg hk, List.find?_cons_of_neg _ (by simpa using hk), Header.find_filter _ _ _ hk]

theorem WriteHeader_HeaderMap (w : ResponseRecorder) (code : Nat) :
    (w.WriteHeader code).HeaderMap = w.HeaderMap := by
  unfold ResponseRecorder.WriteHeader
  split <;> rfl

theorem Error_Code (w : ResponseRecorder) (msg : GoString) (code : Nat)
    (hw : w.wroteHeader = false) : (Error w msg code).Code = code := by
  simp [Error, ResponseRecorder.Write, ResponseRecorder.WriteHeader, hw]

theorem Error_Get (w : ResponseRecorder) (msg : GoString) (code : Nat) (k : GoString)
    (h1 : CanonicalMIMEHeaderKey (str "Content-Type") ≠ CanonicalMIMEHeaderKey k)
    (h2 : CanonicalMIMEHeaderKey (str "X-Content-Type-Options") ≠ CanonicalMIMEHeaderKey k) :
    (Error w msg code).HeaderMap.Get k = w.HeaderMap.Get k := by
  have e : (Error w msg code).HeaderMap =
      Header.Set (Header.Set w.HeaderMap (str "Content-Type") (str "text/plain; charset=utf-8"))
        (str "X-Content-Type-Options") (str "nosniff") := by
    simp only [Error, ResponseRecorder.Write, WriteHeader_HeaderMap]
  rw [e, Header.Get_Set, if_neg h2, Header.Get_Set, if_neg h1]

namespace httplimit

/-- A request whose key cannot be computed: 500, the store as it was, the
wrapped handler not called. -/
theorem Handle_key_error (m : Middleware) (next : Handler) (rfc1123 : Nat → GoString)
    (now : Nat) (s : memorystore.store) (w : ResponseRecorder) (r : Request)
    (e : GoError) (he : (m.keyFunc r).err = some e) :
    m.Handle next rfc1123 now s w r =
      { store := s,
        w := Error w (StatusText StatusInternalServerError) StatusInternalServerError,
        next := [] } := by
  unfold Middleware.Handle
  simp only [he]

/-- A request with a key, the take allowed: the wrapped handler gets the
request the key function left behind. -/
theorem Handle_allowed (m : Middleware) (next : Handler) (rfc1123 : Nat → GoString)
    (now : Nat) (s : memorystore.store) (w : ResponseRecorder) (r : Request)
    (he : (m.keyFunc r).err = none) (hok : (s.Take now (m.keyFunc r).key).2.ok = true) :
    (m.Handle next rfc1123 now s w r).store = (s.Take now (m.keyFunc r).key).1 ∧
    (m.Handle next rfc1123 now s w r).next = [(m.keyFunc r).req] ∧
    ∃ w1 : ResponseRecorder, (m.Handle next rfc1123 now s w r).w = next w1 (m.keyFunc r).req ∧
      w1.wroteHeader = w.wroteHeader := by
  unfold Middleware.Handle
  refine ⟨?_, ?_, ?_⟩
  · simp only [he, hok, Bool.not_true, Bool.false_eq_true, ↓reduceIte]
  · simp only [he, hok, Bool.not_true, Bool.false_eq_true, ↓reduceIte]
  · simp only [he, hok, Bool.not_true, Bool.false_eq_true, ↓reduceIte]
    exact ⟨_, rfl, rfl⟩

/-- A request with a key, the take refused: 429 with the remaining quota in
the header, the wrapped handler not called. -/
theorem Handle_refused (m : Middleware) (next : Handler) (rfc1123 : Nat → GoString)
    (now : Nat) (s : memorystore.store) (w : ResponseRecorder) (r : Request)
    (he : (m.keyFunc r).err = none) (hok : (s.Take now (m.keyFunc r).key).2.ok = false)
    (hw : w.wroteHeader = false) :
    (m.Handle next rfc1123 now s w r).store = (s.Take now (m.keyFunc r).key).1 ∧
    (m.Handle next rfc1123 now s w r).next = [] ∧
    (m.Handle next rfc1123 now s w r).w.Code = 429 ∧
    (m.Handle next rfc1123 now s w r).w.HeaderMap.Get (str "X-Ratelimit-Remaining") =
      FormatUint (s.Take now (m.keyFunc r).key).2.remaining := by
  unfold Middleware.Handle
  refine ⟨?_, ?_, ?_, ?_⟩
  · simp only [he, hok, Bool.not_false, ↓reduceIte]
  · simp only [he, hok, Bool.not_false, ↓reduceIte]
  · simp only [he, hok, Bool.not_false, ↓reduceIte]
    exact Error_Code _ _ _ hw
  · simp only [he, hok, Bool.not_false, ↓reduceIte]
    rw [Error_Get _ _ _ _ (by decide) (by decide)]
    simp only [Header.Get_Set]
    rw [if_neg (by decide), if_neg (by decide), if_pos (by decide)]

end httplimit


/-! ## A sequence of requests inside one window -/

theorem earlier_zero (f : KeyFunc) (reqs : List (Nat × Request)) (k : GoString) :
    earlier f reqs 0 k = 0 := by
  simp [earlier]

theorem earlier_succ (f : KeyFunc) (tr : Nat × Request) (rest : List (Nat × Request))
    (j : Nat) (k : GoString) :
    earlier f (tr :: rest) (j + 1) k
      = (if k = (f tr.2).key then 1 else 0) + earlier f rest j k := by
  simp only [earlier, List.take_succ_cons, List.map_cons, List.count_cons]
  by_cases h : k = (f tr.2).key
  · simp [h]; omega
  · have h2 : ¬ (f tr.2).key = k := fun e => h e.symm
    simp [h, h2]

/-- The admission decision for each request of a sequence served inside one
window, from a store whose buckets have seen `cnt k` requests for key `k`. -/
theorem serveEach_in_window (m : httplimit.Middleware) (next : Handler)
    (rfc1123 : Nat → GoString) (N I T : Nat)
    (hnext : ∀ w r, w.wroteHeader = false → (next w r).Code = 200)
    (hclock : T + I ≤ 2 ^ 64) :
    ∀ (reqs : List (Nat × Request)) (s : memorystore.store) (cnt : GoString → Nat) (tmax : Nat),
      memorystore.Inv N I T tmax cnt s →
      (∀ tr ∈ reqs, (m.keyFunc tr.2).err = none) →
      reqs.Pairwise (fun a b => a.1 ≤ b.1) →
      (∀ tr ∈ reqs, tmax ≤ tr.1 ∧ T ≤ tr.1 ∧ tr.1 < T + I) →
      ∀ (i : Nat) (tr : Nat × Request), reqs[i]? = some tr →
        ∃ o, (serveEach m next rfc1123 s reqs)[i]? = some o ∧
          (cnt (m.keyFunc tr.2).key + earlier m.keyFunc reqs i (m.keyFunc tr.2).key < N →
            o.next = [(m.keyFunc tr.2).req] ∧ o.w.Code = 200) ∧
          (¬ cnt (m.keyFunc tr.2).key + earlier m.keyFunc reqs i (m.keyFunc tr.2).key < N →
            o.next = [] ∧ o.w.Code = 429 ∧
              o.w.HeaderMap.Get (str "X-Ratelimit-Remaining") = str "0") := by
  intro reqs
  induction reqs with
  | nil => intro s cnt tmax _ _ _ _ i tr h; simp at h
  | cons hd rest ih =>
    intro s cnt tmax hinv hdec hsorted hwin i tr hget
    obtain ⟨now, r⟩ := hd
    have hdec0 : (m.keyFunc r).err = none := hdec (now, r) (List.mem_cons_self _ _)
    obtain ⟨hw1, hw2, hw3⟩ := hwin (now, r) (List.mem_cons_self _ _)
    obtain ⟨hinv0, hnew⟩ :=
      memorystore.sweep_in_window N I T tmax now cnt s hinv hw1 hw3 (by omega)
    obtain ⟨hok, _, hrem, hinv1⟩ :=
      memorystore.store_Take_in_window N I T tmax now cnt (s.sweep now) (m.keyFunc r).key
        hinv0 hw2 hw1 hw3 (by omega) hnew
    cases i with
    | zero =>
      simp only [List.getElem?_cons_zero, Option.some.injEq] at hget
      subst hget
      refine ⟨m.Handle next rfc1123 now (s.sweep now) NewRecorder r, by simp [serveEach], ?_, ?_⟩
      · intro hlt
        rw [earlier_zero, Nat.add_zero] at hlt
        have hok1 : ((s.sweep now).Take now (m.keyFunc r).key).2.ok = true := by simp [hok, hlt]
        obtain ⟨_, hn, w1, hw, hwh⟩ :=
          httplimit.Handle_allowed m next rfc1123 now (s.sweep now) NewRecorder r hdec0 hok1
        exact ⟨hn, by rw [hw]; exact hnext _ _ (by rw [hwh]; rfl)⟩
      · intro hge
        rw [earlier_zero, Nat.add_zero] at hge
        have hok1 : ((s.sweep now).Take now (m.keyFunc r).key).2.ok = false := by
          simp [hok, hge]
        obtain ⟨_, hn, hc, hh⟩ :=
          httplimit.Handle_refused m next rfc1123 now (s.sweep now) NewRecorder r hdec0 hok1 rfl
        refine ⟨hn, hc, ?_⟩
        rw [hh, hrem hge]
        decide
    | succ j =>
      simp only [List.getElem?_cons_succ] at hget
      have hstore : (m.Handle next rfc1123 now (s.sweep now) NewRecorder r).store
          = ((s.sweep now).Take now (m.keyFunc r).key).1 := by
        cases hb : ((s.sweep now).Take now (m.keyFunc r).key).2.ok with
        | true =>
          exact (httplimit.Handle_allowed m next rfc1123 now (s.sweep now) NewRecorder r
            hdec0 hb).1
        | false =>
          exact (httplimit.Handle_refused m next rfc1123 now (s.sweep now) NewRecorder r
            hdec0 hb rfl).1
      have hsorted1 := List.pairwise_cons.mp hsorted
      obtain ⟨o, ho, h1, h2⟩ :=
        ih ((s.sweep now).Take now (m.keyFunc r).key).1
          (fun x => if x = (m.keyFunc r).key then cnt x + 1 else cnt x) now hinv1
          (fun t ht => hdec t (List.mem_cons_of_mem _ ht)) hsorted1.2
          (fun t ht =>
            ⟨hsorted1.1 t ht, (hwin t (List.mem_cons_of_mem _ ht)).2⟩) j tr hget
      refine ⟨o, by simp [serveEach, hstore, ho], ?_, ?_⟩
      · intro hlt
        apply h1
        rw [earlier_succ] at hlt
        by_cases hk : (m.keyFunc tr.2).key = (m.keyFunc r).key
        · simp only [hk, if_true] at hlt ⊢; omega
        · simp only [hk, if_false] at hlt ⊢; omega
      · intro hge
        apply h2
        rw [earlier_succ] at hge
        by_cases hk : (m.keyFunc tr.2).key = (m.keyFunc r).key
        · simp only [hk, if_true] at hge ⊢; omega
        · simp only [hk, if_false] at hge ⊢; omega

/-- A key that no bucket of the store and no earlier request of the sequence
has is admitted, whatever the arrival times and the settings of the store. -/
theorem serveEach_unseen_key (m : httplimit.Middleware) (next : Handler)
    (rfc1123 : Nat → GoString)
    (hnext : ∀ w r, w.wroteHeader = false → (next w r).Code = 200) :
    ∀ (reqs : List (Nat × Request)) (s : memorystore.store) (i : Nat) (tr : Nat × Request),
      0 < s.tokens →
      (∀ x ∈ reqs, (m.keyFunc x.2).err = none) →
      reqs[i]? = some tr →
      s.data (m.keyFunc tr.2).key = none →
      earlier m.keyFunc reqs i (m.keyFunc tr.2).key = 0 →
      ∃ o, (serveEach m next rfc1123 s reqs)[i]? = some o ∧
        o.next = [(m.keyFunc tr.2).req] ∧ o.w.Code = 200 := by
  intro reqs
  induction reqs with
  | nil => intro s i tr _ _ h; simp at h
  | cons hd rest ih =>
    intro s i tr htok hdec hget hnone hzero
    obtain ⟨now, r⟩ := hd
    have hdec0 : (m.keyFunc r).err = none := hdec (now, r) (List.mem_cons_self _ _)
    have hsweep_tok : (s.sweep now).tokens = s.tokens := by
      unfold memorystore.store.sweep; split <;> rfl
    have hsweep_int : (s.sweep now).interval = s.interval := by
      unfold memorystore.store.sweep; split <;> rfl
    have hsweep_none : ∀ k, s.data k = none → (s.sweep now).data k = none := by
      intro k hk
      unfold memorystore.store.sweep
      split
      · simp [memorystore.store.purge, hk]
      · exact hk
    cases i with
    | zero =>
      simp only [List.getElem?_cons_zero, Option.some.injEq] at hget
      subst hget
      have hok1 : ((s.sweep now).Take now (m.keyFunc r).key).2.ok = true := by
        have ht : memorystore.tick now now s.interval = 0 := by
          unfold memorystore.tick
          have e : now + 2 ^ 64 - now = 0 + 2 ^ 64 := by omega
          rw [e, Nat.add_mod_right]
          simp
        have hpos : 0 < s.tokens := htok
        simp [memorystore.store.Take, hsweep_none _ hnone, memorystore.newBucket,
          memorystore.bucket.take, ht, hsweep_tok, hsweep_int, hpos]
      obtain ⟨_, hn, w1, hw, hwh⟩ :=
        httplimit.Handle_allowed m next rfc1123 now (s.sweep now) NewRecorder r hdec0 hok1
      exact ⟨m.Handle next rfc1123 now (s.sweep now) NewRecorder r, by simp [serveEach], hn,
        by rw [hw]; exact hnext _ _ (by rw [hwh]; rfl)⟩
    | succ j =>
      simp only [List.getElem?_cons_succ] at hget
      rw [earlier_succ] at hzero
      have hkne : ¬ (m.keyFunc tr.2).key = (m.keyFunc r).key := by
        intro hk
        simp only [hk, if_true] at hzero
        omega
      have hzero1 : earlier m.keyFunc rest j (m.keyFunc tr.2).key = 0 := by
        simp only [hkne, if_false] at hzero
        omega
      have hstore : (m.Handle next rfc1123 now (s.sweep now) NewRecorder r).store
          = ((s.sweep now).Take now (m.keyFunc r).key).1 := by
        cases hb : ((s.sweep now).Take now (m.keyFunc r).key).2.ok with
        | true =>
          exact (httplimit.Handle_allowed m next rfc1123 now (s.sweep now) NewRecorder r
            hdec0 hb).1
        | false =>
          exact (httplimit.Handle_refused m next rfc1123 now (s.sweep now) NewRecorder r
            hdec0 hb rfl).1
      have htok1 : 0 < ((s.sweep now).Take now (m.keyFunc r).key).1.tokens := by
        simp only [memorystore.store.Take]
        rw [hsweep_tok]; exact htok
      have hnone1 : ((s.sweep now).Take now (m.keyFunc r).key).1.data (m.keyFunc tr.2).key
          = none := by
        simp only [memorystore.store.Take]
        rw [Function.update_noteq hkne]
        exact hsweep_none _ hnone
      obtain ⟨o, ho, h1, h2⟩ :=
        ih ((s.sweep now).Take now (m.keyFunc r).key).1 j tr htok1
          (fun t ht => hdec t (List.mem_cons_of_mem _ ht)) hget hnone1 hzero1
      exact ⟨o, by simp [serveEach, hstore, ho], h1, h2⟩

/-! ## The event key function -/

theorem eventKeyFunc_of_Decodes (unmarshal : Unmarshal) (r : Request) (e : Event)
    (h : Decodes unmarshal r e) :
    eventKeyFunc unmarshal r =
      { key := str "event/" ++ e.InvolvedObject.String ++ str "/" ++ e.Severity,
        err := none,
        req := { r with Body := { r.Body with data := [] } } } := by
  obtain ⟨h1, h2⟩ := h
  simp [eventKeyFunc, ReadAll, h1, h2]

theorem eventKeyFunc_err_of_Decodes (unmarshal : Unmarshal) (r : Request)
    (h : ∃ e, Decodes unmarshal r e) : (eventKeyFunc unmarshal r).err = none := by
  obtain ⟨e, he⟩ := h
  rw [eventKeyFunc_of_Decodes unmarshal r e he]

theorem testHandler_Code (w : ResponseRecorder) (r : Request) (hw : w.wroteHeader = false) :
    (testHandler w r).Code = 200 := by
  simp [testHandler, ResponseRecorder.WriteHeader, hw]

/-! ## Claims about admission -/

/-- C1, as the code has it: with the in-memory counting store of any
configuration whose window is not longer than the time after which its purge
deletes an idle bucket (`SweepMinTTL`, 12 hours by default), limit `N` per key,
and event requests with decodable bodies served one after another inside one
window, a request is passed to the wrapped handler and answered 200 exactly
when fewer than `N` earlier requests of the sequence have its key; otherwise the
handler is not called and the answer is 429 with `X-Ratelimit-Remaining` equal
to `0`. Requests with other keys do not enter the count. -/
theorem admitted_iff_fewer_than_limit_earlier (unmarshal : Unmarshal) (next : Handler)
    (rfc1123 : Nat → GoString) (c : memorystore.Config) (T : Nat)
    (reqs : List (Nat × Request))
    (hTTL : (memorystore.New c).interval ≤ (memorystore.New c).sweepMinTTL)
    (hnext : ∀ w r, w.wroteHeader = false → (next w r).Code = 200)
    (hdec : ∀ tr ∈ reqs, ∃ e, Decodes unmarshal tr.2 e)
    (hsorted : reqs.Pairwise (fun a b => a.1 ≤ b.1))
    (hwin : ∀ tr ∈ reqs, T ≤ tr.1 ∧ tr.1 < T + (memorystore.New c).interval)
    (hclock : T + (memorystore.New c).interval ≤ 2 ^ 64)
    (i : Nat) (tr : Nat × Request) (hi : reqs[i]? = some tr) :
    ∃ o, (serveEach { keyFunc := eventKeyFunc unmarshal } next rfc1123
          (memorystore.New c) reqs)[i]? = some o ∧
      (earlier (eventKeyFunc unmarshal) reqs i (eventKeyFunc unmarshal tr.2).key
            < (memorystore.New c).tokens →
          o.next = [(eventKeyFunc unmarshal tr.2).req] ∧ o.w.Code = 200) ∧
      (¬ earlier (eventKeyFunc unmarshal) reqs i (eventKeyFunc unmarshal tr.2).key
            < (memorystore.New c).tokens →
          o.next = [] ∧ o.w.Code = 429 ∧
            o.w.HeaderMap.Get (str "X-Ratelimit-Remaining") = str "0") := by
  have h := serveEach_in_window { keyFunc := eventKeyFunc unmarshal } next rfc1123
    (memorystore.New c).tokens (memorystore.New c).interval T hnext hclock reqs
    (memorystore.New c) (fun _ => 0) T (memorystore.Inv_New c T T hTTL)
    (fun tr htr => eventKeyFunc_err_of_Decodes unmarshal tr.2 (hdec tr htr)) hsorted
    (fun tr htr => ⟨(hwin tr htr).1, hwin tr htr⟩) i tr hi
  simpa using h

/-- C1 at the test table: the fourth row has two earlier rows with its key, the
limit is one, and the row is refused. -/
theorem admitted_iff_fewer_than_limit_earlier_witness :
    (∃ o, (serveEach { keyFunc := eventKeyFunc sampleUnmarshal } testHandler FormatUint
          testStore testRows)[3]? = some o ∧
        o.next = [] ∧ o.w.Code = 429 ∧
          o.w.HeaderMap.Get (str "X-Ratelimit-Remaining") = str "0") := by
  obtain ⟨o, ho, _, h2⟩ :=
    admitted_iff_fewer_than_limit_earlier sampleUnmarshal testHandler FormatUint
      { Tokens := 0, Interval := 600 * Second } 0 testRows (by decide) testHandler_Code
      (by
        intro tr htr
        simp only [testRows, List.mem_cons, List.mem_singleton, List.not_mem_nil, or_false] at htr
        rcases htr with rfl | rfl | rfl | rfl
        · exact ⟨mkEvent (testObject (str "1")) EventSeverityInfo [], rfl, by decide⟩
        · exact ⟨mkEvent (testObject (str "1")) EventSeverityInfo [], rfl, by decide⟩
        · exact ⟨mkEvent (testObject (str "1")) EventSeverityError [], rfl, by decide⟩
        · exact ⟨mkEvent (testObject (str "1")) EventSeverityInfo [], rfl, by decide⟩)
      (by decide) (by decide) (by decide) 3 _ rfl
  exact ⟨o, ho, h2 (by decide)⟩

/-- C1 as stated fails: the store `dayStore` has a limit of one request per key
in a window of 24 hours; the two requests of `dayRows` are decodable, have the
same key and arrive 19 hours apart inside one window, so one earlier request
has the key of the second; the purge pass 18 hours after the store was created
deletes the bucket, which is then 17 hours old, and the second request is
passed to the handler and answered 200 where the statement has 429. -/
theorem purge_readmits_inside_window :
    dayStore.tokens = 1 ∧ dayStore.interval = 24 * 3600 * Second ∧
    (∀ tr ∈ dayRows, (eventKeyFunc sampleUnmarshal tr.2).err = none) ∧
    dayRows.Pairwise (fun a b => a.1 ≤ b.1) ∧
    (∀ tr ∈ dayRows, 0 ≤ tr.1 ∧ tr.1 < 0 + dayStore.interval) ∧
    earlier (eventKeyFunc sampleUnmarshal) dayRows 1
      (eventKeyFunc sampleUnmarshal
        (post (eventJSON (mkEvent (testObject (str "1")) EventSeverityInfo [])))).key = 1 ∧
    (serveEach { keyFunc := eventKeyFunc sampleUnmarshal } testHandler FormatUint dayStore
        dayRows).map (fun x => (x.w.Code, x.next.length)) = [(200, 1), (200, 1)] := by
  decide

/-- C2, as the code has it: when `eventKeyFunc` fails on a request, the
middleware answers 500 (Internal Server Error, a server error), leaves the
store as it was, and does not call the wrapped handler. -/
theorem key_failure_answered_500_store_untouched (unmarshal : Unmarshal) (next : Handler)
    (rfc1123 : Nat → GoString) (now : Nat) (s : memorystore.store) (w : ResponseRecorder)
    (r : Request) (hw : w.wroteHeader = false)
    (hfail : (eventKeyFunc unmarshal r).err ≠ none) :
    (httplimit.Middleware.Handle { keyFunc := eventKeyFunc unmarshal }
        next rfc1123 now s w r).w.Code = 500 ∧
    (httplimit.Middleware.Handle { keyFunc := eventKeyFunc unmarshal }
        next rfc1123 now s w r).store = s ∧
    (httplimit.Middleware.Handle { keyFunc := eventKeyFunc unmarshal }
        next rfc1123 now s w r).next = [] := by
  cases he : (eventKeyFunc unmarshal r).err with
  | none => exact absurd he hfail
  | some e =>
    rw [httplimit.Handle_key_error { keyFunc := eventKeyFunc unmarshal } next rfc1123 now s w r e he]
    exact ⟨Error_Code _ _ _ hw, rfl, rfl⟩

/-- C2 at a request whose body cannot be read. -/
theorem key_failure_answered_500_store_untouched_witness :
    (httplimit.Middleware.Handle { keyFunc := eventKeyFunc sampleUnmarshal }
        testHandler FormatUint 0 testStore NewRecorder postUnreadable).w.Code = 500 ∧
    (httplimit.Middleware.Handle { keyFunc := eventKeyFunc sampleUnmarshal }
        testHandler FormatUint 0 testStore NewRecorder postUnreadable).store = testStore ∧
    (httplimit.Middleware.Handle { keyFunc := eventKeyFunc sampleUnmarshal }
        testHandler FormatUint 0 testStore NewRecorder postUnreadable).next = [] :=
  key_failure_answered_500_store_untouched sampleUnmarshal testHandler FormatUint 0 testStore
    NewRecorder postUnreadable rfl (by decide)

/-- C2 as stated fails: a request with an empty body, which is not decodable,
and a request with an unreadable body both make `eventKeyFunc` fail, and both
are answered 500, which is not a 4xx status. -/
theorem undecodable_body_not_answered_4xx :
    (eventKeyFunc sampleUnmarshal (post [])).err = some "unexpected end of JSON input" ∧
    (httplimit.Middleware.Handle { keyFunc := eventKeyFunc sampleUnmarshal }
        testHandler FormatUint 0 testStore NewRecorder (post [])).w.Code = 500 ∧
    (eventKeyFunc sampleUnmarshal postUnreadable).err = some "unexpected EOF" ∧
    (httplimit.Middleware.Handle { keyFunc := eventKeyFunc sampleUnmarshal }
        testHandler FormatUint 0 testStore NewRecorder postUnreadable).w.Code = 500 ∧
    ¬ (400 ≤ (httplimit.Middleware.Handle { keyFunc := eventKeyFunc sampleUnmarshal }
          testHandler FormatUint 0 testStore NewRecorder (post [])).w.Code ∧
        (httplimit.Middleware.Handle { keyFunc := eventKeyFunc sampleUnmarshal }
          testHandler FormatUint 0 testStore NewRecorder (post [])).w.Code < 500) := by
  decide

/-! ## Keys of one object at two severities -/

theorem key_severity_cancel (o : ObjectReference) (v1 v2 : GoString)
    (h : str "event/" ++ o.String ++ str "/" ++ v1 = str "event/" ++ o.String ++ str "/" ++ v2) :
    v1 = v2 :=
  List.append_cancel_left h

theorem serveEach_length (m : httplimit.Middleware) (next : Handler) (rfc1123 : Nat → GoString)
    (reqs : List (Nat × Request)) :
    ∀ s : memorystore.store, (serveEach m next rfc1123 s reqs).length = reqs.length := by
  induction reqs with
  | nil => intro s; rfl
  | cons hd rest ih =>
    intro s
    obtain ⟨now, r⟩ := hd
    simp [serveEach, ih]

/-- With the store of the test (one request per key in a 10 minute window),
the handler of the test, and four requests inside one window that decode to
(o, info), (o, info), (o, error), (o, info) for any involved object o, the
answers are 200, 429, 200, 429: the fourth request has the key of the first
two and is refused. -/
theorem same_key_fourth_request_refused (unmarshal : Unmarshal) (rfc1123 : Nat → GoString)
    (o : ObjectReference) (r1 r2 r3 r4 : Request) (e1 e2 e3 e4 : Event) (t1 t2 t3 t4 : Nat)
    (h1 : Decodes unmarshal r1 e1) (h2 : Decodes unmarshal r2 e2)
    (h3 : Decodes unmarshal r3 e3) (h4 : Decodes unmarshal r4 e4)
    (ho : e1.InvolvedObject = o ∧ e2.InvolvedObject = o ∧ e3.InvolvedObject = o ∧
      e4.InvolvedObject = o)
    (hv : e1.Severity = EventSeverityInfo ∧ e2.Severity = EventSeverityInfo ∧
      e3.Severity = EventSeverityError ∧ e4.Severity = EventSeverityInfo)
    (ht : t1 ≤ t2 ∧ t2 ≤ t3 ∧ t3 ≤ t4 ∧ t4 < t1 + 600 * Second ∧ t1 + 600 * Second ≤ 2 ^ 64) :
    (serveEach { keyFunc := eventKeyFunc unmarshal } testHandler rfc1123 testStore
        [(t1, r1), (t2, r2), (t3, r3), (t4, r4)]).map (fun x => x.w.Code)
      = [200, 429, 200, 429] := by
  obtain ⟨ho1, ho2, ho3, ho4⟩ := ho
  obtain ⟨hv1, hv2, hv3, hv4⟩ := hv
  obtain ⟨ht1, ht2, ht3, ht4, ht5⟩ := ht
  have k1 := eventKeyFunc_of_Decodes unmarshal r1 e1 h1
  have k2 := eventKeyFunc_of_Decodes unmarshal r2 e2 h2
  have k3 := eventKeyFunc_of_Decodes unmarshal r3 e3 h3
  have k4 := eventKeyFunc_of_Decodes unmarshal r4 e4 h4
  rw [ho1, hv1] at k1
  rw [ho2, hv2] at k2
  rw [ho3, hv3] at k3
  rw [ho4, hv4] at k4
  have hne : str "event/" ++ o.String ++ str "/" ++ EventSeverityError
      ≠ str "event/" ++ o.String ++ str "/" ++ EventSeverityInfo :=
    fun h => absurd (key_severity_cancel o _ _ h) (by decide)
  have hI : (memorystore.New { Tokens := 0, Interval := 600 * Second }).interval = 600 * Second := by
    decide
  have hN : (memorystore.New { Tokens := 0, Interval := 600 * Second }).tokens = 1 := by
    decide
  have main := serveEach_in_window { keyFunc := eventKeyFunc unmarshal } testHandler rfc1123
    1 (600 * Second) t1 testHandler_Code ht5 [(t1, r1), (t2, r2), (t3, r3), (t4, r4)]
    testStore (fun _ => 0) t1
    (by have := memorystore.Inv_New { Tokens := 0, Interval := 600 * Second } t1 t1 (by decide)
        rw [hI, hN] at this; exact this)
    (by
      intro tr htr
      simp only [List.mem_cons, List.mem_singleton, List.not_mem_nil, or_false] at htr
      rcases htr with rfl | rfl | rfl | rfl
      · simp [k1]
      · simp [k2]
      · simp [k3]
      · simp [k4])
    (by simp; omega)
    (by
      intro tr htr
      simp only [List.mem_cons, List.mem_singleton, List.not_mem_nil, or_false] at htr
      rcases htr with rfl | rfl | rfl | rfl <;> simp <;> omega)
  obtain ⟨o0, g0, a0, _⟩ := main 0 (t1, r1) rfl
  obtain ⟨o1, g1, _, b1⟩ := main 1 (t2, r2) rfl
  obtain ⟨o2, g2, a2, _⟩ := main 2 (t3, r3) rfl
  obtain ⟨o3, g3, _, b3⟩ := main 3 (t4, r4) rfl
  have hsev : ¬ EventSeverityInfo = EventSeverityError := by decide
  have c0 := (a0 (by simp [earlier])).2
  have c1 := (b1 (by simp [earlier, k1, k2])).2.1
  have c2 := (a2 (by simp [earlier, k1, k2, k3, hne, hsev, List.count_cons])).2
  have c3 := (b3 (by simp [earlier, k1, k2, k3, k4, hne, hsev, List.count_cons])).2.1
  have hlen := serveEach_length { keyFunc := eventKeyFunc unmarshal } testHandler rfc1123
    [(t1, r1), (t2, r2), (t3, r3), (t4, r4)] testStore
  generalize serveEach { keyFunc := eventKeyFunc unmarshal } testHandler rfc1123 testStore
    [(t1, r1), (t2, r2), (t3, r3), (t4, r4)] = outs at g0 g1 g2 g3 hlen ⊢
  match outs, hlen with
  | [x0, x1, x2, x3], _ =>
    simp only [List.getElem?_cons_zero, List.getElem?_cons_succ, Option.some.injEq] at g0 g1 g2 g3
    subst g0 g1 g2 g3
    simp [c0, c1, c2, c3]

/-- The rows of the test table, ten seconds apart. -/
theorem same_key_fourth_request_refused_at_test_rows :
    (serveEach { keyFunc := eventKeyFunc sampleUnmarshal } testHandler FormatUint testStore
        [(10 * Second, post (eventJSON (mkEvent (testObject (str "1")) EventSeverityInfo []))),
         (20 * Second, post (eventJSON (mkEvent (testObject (str "1")) EventSeverityInfo []))),
         (30 * Second, post (eventJSON (mkEvent (testObject (str "1")) EventSeverityError []))),
         (40 * Second, post (eventJSON (mkEvent (testObject (str "1")) EventSeverityInfo [])))]).map
        (fun x => x.w.Code)
      = [200, 429, 200, 429] :=
  same_key_fourth_request_refused sampleUnmarshal FormatUint (testObject (str "1"))
    _ _ _ _
    (mkEvent (testObject (str "1")) EventSeverityInfo [])
    (mkEvent (testObject (str "1")) EventSeverityInfo [])
    (mkEvent (testObject (str "1")) EventSeverityError [])
    (mkEvent (testObject (str "1")) EventSeverityInfo [])
    (10 * Second) (20 * Second) (30 * Second) (40 * Second)
    ⟨rfl, by decide⟩ ⟨rfl, by decide⟩ ⟨rfl, by decide⟩ ⟨rfl, by decide⟩
    ⟨rfl, rfl, rfl, rfl⟩ ⟨rfl, rfl, rfl, rfl⟩ (by decide)

/-- C9 at the first four rows of the test table, served one second apart with
the store and the handler of the test: the code answers 200, 429, 200, 429,
where row 4 of the table expects 200. -/
theorem test_rows_fourth_answer_is_429 :
    (serveEach { keyFunc := eventKeyFunc sampleUnmarshal } testHandler FormatUint testStore
        testRows).map (fun x => x.w.Code) = [200, 429, 200, 429] ∧
    (serveEach { keyFunc := eventKeyFunc sampleUnmarshal } testHandler FormatUint testStore
        testRows).map (fun x => x.w.Code) ≠ [200, 429, 200, 200] := by
  decide

/-! ## Claims about the event key -/

theorem String_expanded (o : ObjectReference) :
    o.String = str "&ObjectReference\x7bKind:" ++ o.Kind ++ str ",Namespace:" ++ o.Namespace
      ++ str ",Name:" ++ o.Name ++ str ",UID:" ++ o.UID ++ str ",APIVersion:" ++ o.APIVersion
      ++ str ",ResourceVersion:" ++ o.ResourceVersion ++ str ",FieldPath:" ++ o.FieldPath
      ++ str ",\x7d" := by
  have a0 : str "&ObjectReference\x7bKind:" = str "&ObjectReference\x7b" ++ str "Kind:" := by decide
  have a1 : str ",Namespace:" = str "," ++ str "Namespace:" := by decide
  have a2 : str ",Name:" = str "," ++ str "Name:" := by decide
  have a3 : str ",UID:" = str "," ++ str "UID:" := by decide
  have a4 : str ",APIVersion:" = str "," ++ str "APIVersion:" := by decide
  have a5 : str ",ResourceVersion:" = str "," ++ str "ResourceVersion:" := by decide
  have a6 : str ",FieldPath:" = str "," ++ str "FieldPath:" := by decide
  have a7 : str ",\x7d" = str "," ++ str "\x7d" := by decide
  rw [a0, a1, a2, a3, a4, a5, a6, a7]
  simp only [ObjectReference.String, List.append_assoc]

/-- C5: for a request whose body is readable and decodes as a record with
involved object o and severity v, `eventKeyFunc` returns a nil error and the
key `event/` + (string form of o) + `/` + v, and the string form of o is the
text `&ObjectReference{Kind:..,Namespace:..,Name:..,UID:..,APIVersion:..,
ResourceVersion:..,FieldPath:..,}` built from the seven field values alone. -/
theorem eventKeyFunc_key_of_decoded (unmarshal : Unmarshal) (r : Request) (e : Event)
    (h : Decodes unmarshal r e) :
    (eventKeyFunc unmarshal r).err = none ∧
    (eventKeyFunc unmarshal r).key
      = str "event/" ++ e.InvolvedObject.String ++ str "/" ++ e.Severity ∧
    e.InvolvedObject.String
      = str "&ObjectReference\x7bKind:" ++ e.InvolvedObject.Kind
        ++ str ",Namespace:" ++ e.InvolvedObject.Namespace
        ++ str ",Name:" ++ e.InvolvedObject.Name
        ++ str ",UID:" ++ e.InvolvedObject.UID
        ++ str ",APIVersion:" ++ e.InvolvedObject.APIVersion
        ++ str ",ResourceVersion:" ++ e.InvolvedObject.ResourceVersion
        ++ str ",FieldPath:" ++ e.InvolvedObject.FieldPath ++ str ",\x7d" := by
  rw [eventKeyFunc_of_Decodes unmarshal r e h]
  exact ⟨rfl, rfl, String_expanded _⟩

/-- C5 at the first row of the test table. -/
theorem eventKeyFunc_key_of_decoded_witness :
    (eventKeyFunc sampleUnmarshal
        (post (eventJSON (mkEvent (testObject (str "1")) EventSeverityInfo [])))).err = none ∧
    (eventKeyFunc sampleUnmarshal
        (post (eventJSON (mkEvent (testObject (str "1")) EventSeverityInfo [])))).key
      = str "event/&ObjectReference\x7bKind:Kustomization,Namespace:1,Name:1,UID:,APIVersion:kustomize.toolkit.fluxcd.io/v1beta1,ResourceVersion:,FieldPath:,\x7d/info" := by
  have h := eventKeyFunc_key_of_decoded sampleUnmarshal
    (post (eventJSON (mkEvent (testObject (str "1")) EventSeverityInfo [])))
    (mkEvent (testObject (str "1")) EventSeverityInfo []) ⟨rfl, by decide⟩
  refine ⟨h.1, ?_⟩
  rw [h.2.1]
  decide

theorem split_at_separator (c : Byte) :
    ∀ (a b x y : GoString), c ∉ a → c ∉ b → a ++ c :: x = b ++ c :: y → a = b ∧ x = y := by
  intro a
  induction a with
  | nil =>
    intro b x y _ hb h
    cases b with
    | nil => simpa using h
    | cons b0 bs =>
      simp only [List.nil_append, List.cons_append, List.cons.injEq] at h
      exact absurd (h.1 ▸ List.mem_cons_self _ _) hb
  | cons a0 as ih =>
    intro b x y ha hb h
    cases b with
    | nil =>
      simp only [List.nil_append, List.cons_append, List.cons.injEq] at h
      exact absurd (h.1 ▸ List.mem_cons_self _ _) ha
    | cons b0 bs =>
      simp only [List.cons_append, List.cons.injEq] at h
      obtain ⟨h0, hrest⟩ := h
      obtain ⟨e1, e2⟩ := ih bs x y (fun m => ha (List.mem_cons_of_mem _ m))
        (fun m => hb (List.mem_cons_of_mem _ m)) hrest
      exact ⟨by rw [h0, e1], e2⟩

theorem key_separated (o : ObjectReference) (v : GoString) :
    str "event/" ++ o.String ++ str "/" ++ v
      = str "event/&ObjectReference\x7bKind:" ++ (o.Kind ++ comma :: (str "Namespace:"
        ++ (o.Namespace ++ comma :: (str "Name:" ++ (o.Name ++ comma :: (str "UID:"
        ++ (o.UID ++ comma :: (str "APIVersion:" ++ (o.APIVersion ++ comma ::
          (str "ResourceVersion:" ++ (o.ResourceVersion ++ comma :: (str "FieldPath:"
        ++ (o.FieldPath ++ comma :: (str "\x7d/" ++ v)))))))))))))) := by
  simp only [ObjectReference.String, List.append_assoc]
  rfl

theorem key_injective_of_CommaFree (o1 o2 : ObjectReference) (v1 v2 : GoString)
    (hc1 : CommaFree o1) (hc2 : CommaFree o2)
    (h : str "event/" ++ o1.String ++ str "/" ++ v1 = str "event/" ++ o2.String ++ str "/" ++ v2) :
    o1 = o2 ∧ v1 = v2 := by
  obtain ⟨c1, c2, c3, c4, c5, c6, c7⟩ := hc1
  obtain ⟨d1, d2, d3, d4, d5, d6, d7⟩ := hc2
  rw [key_separated, key_separated] at h
  have s1 := split_at_separator comma _ _ _ _ c1 d1 (List.append_cancel_left h)
  have s2 := split_at_separator comma _ _ _ _ c2 d2 (List.append_cancel_left s1.2)
  have s3 := split_at_separator comma _ _ _ _ c3 d3 (List.append_cancel_left s2.2)
  have s4 := split_at_separator comma _ _ _ _ c4 d4 (List.append_cancel_left s3.2)
  have s5 := split_at_separator comma _ _ _ _ c5 d5 (List.append_cancel_left s4.2)
  have s6 := split_at_separator comma _ _ _ _ c6 d6 (List.append_cancel_left s5.2)
  have s7 := split_at_separator comma _ _ _ _ c7 d7 (List.append_cancel_left s6.2)
  have sv : v1 = v2 := List.append_cancel_left s7.2
  refine ⟨?_, sv⟩
  cases o1
  cases o2
  simp only [ObjectReference.mk.injEq]
  exact ⟨s1.1, s2.1, s3.1, s4.1, s5.1, s6.1, s7.1⟩

/-- C6, as the code has it: two decodable event requests whose (involved
object reference, severity) pairs differ get different keys when no field of
either reference contains a comma; the severities may be any strings. -/
theorem keys_differ_when_references_comma_free (unmarshal : Unmarshal) (r1 r2 : Request)
    (e1 e2 : Event) (h1 : Decodes unmarshal r1 e1) (h2 : Decodes unmarshal r2 e2)
    (hc1 : CommaFree e1.InvolvedObject) (hc2 : CommaFree e2.InvolvedObject)
    (hne : (e1.InvolvedObject, e1.Severity) ≠ (e2.InvolvedObject, e2.Severity)) :
    (eventKeyFunc unmarshal r1).key ≠ (eventKeyFunc unmarshal r2).key := by
  rw [eventKeyFunc_of_Decodes unmarshal r1 e1 h1, eventKeyFunc_of_Decodes unmarshal r2 e2 h2]
  intro h
  obtain ⟨ho, hv⟩ := key_injective_of_CommaFree _ _ _ _ hc1 hc2 h
  exact hne (by rw [ho, hv])

/-- C6 at two rows of the test table that differ in name and namespace. -/
theorem keys_differ_when_references_comma_free_witness :
    (eventKeyFunc sampleUnmarshal
        (post (eventJSON (mkEvent (testObject (str "2")) EventSeverityInfo [])))).key
      ≠ (eventKeyFunc sampleUnmarshal
        (post (eventJSON (mkEvent (testObject (str "3")) EventSeverityInfo [])))).key :=
  keys_differ_when_references_comma_free sampleUnmarshal _ _
    (mkEvent (testObject (str "2")) EventSeverityInfo [])
    (mkEvent (testObject (str "3")) EventSeverityInfo [])
    ⟨rfl, by decide⟩ ⟨rfl, by decide⟩ (by unfold CommaFree; decide) (by unfold CommaFree; decide)
    (by decide)

/-- C6 as stated fails: the reference with namespace `apps,Name:web` and name
`api` and the reference with namespace `apps` and name `web,Name:api` differ,
both requests decode, and `eventKeyFunc` gives both the same key. -/
theorem comma_in_field_collides :
    Decodes sampleUnmarshal (post (eventJSON (mkEvent commaInNamespace EventSeverityInfo [])))
      (mkEvent commaInNamespace EventSeverityInfo []) ∧
    Decodes sampleUnmarshal (post (eventJSON (mkEvent commaInName EventSeverityInfo [])))
      (mkEvent commaInName EventSeverityInfo []) ∧
    (commaInNamespace, EventSeverityInfo) ≠ (commaInName, EventSeverityInfo) ∧
    (eventKeyFunc sampleUnmarshal
        (post (eventJSON (mkEvent commaInNamespace EventSeverityInfo [])))).key
      = (eventKeyFunc sampleUnmarshal
        (post (eventJSON (mkEvent commaInName EventSeverityInfo [])))).key := by
  refine ⟨⟨rfl, by decide⟩, ⟨rfl, by decide⟩, by decide, by decide⟩

theorem New_tokens_pos (c : memorystore.Config) : 0 < (memorystore.New c).tokens := by
  unfold memorystore.New
  by_cases h : c.Tokens > 0
  · simp [h]
  · simp [h]

/-- C7: two decodable event requests with the same involved object and
different severities get different keys; hence, in one window, after any
number of requests that decode to the object and severity of the first, the
second is still passed to the wrapped handler and answered 200. -/
theorem other_severity_has_its_own_bucket (unmarshal : Unmarshal) (r1 r2 : Request)
    (e1 e2 : Event) (h1 : Decodes unmarshal r1 e1) (h2 : Decodes unmarshal r2 e2)
    (ho : e1.InvolvedObject = e2.InvolvedObject) (hv : e1.Severity ≠ e2.Severity) :
    (eventKeyFunc unmarshal r1).key ≠ (eventKeyFunc unmarshal r2).key ∧
    ∀ (next : Handler) (rfc1123 : Nat → GoString) (c : memorystore.Config) (T : Nat)
      (pre : List (Nat × Request)) (t : Nat),
      (∀ w r, w.wroteHeader = false → (next w r).Code = 200) →
      (∀ tr ∈ pre, ∃ e, Decodes unmarshal tr.2 e ∧
        e.InvolvedObject = e1.InvolvedObject ∧ e.Severity = e1.Severity) →
      (pre ++ [(t, r2)]).Pairwise (fun a b => a.1 ≤ b.1) →
      (∀ tr ∈ pre ++ [(t, r2)], T ≤ tr.1 ∧ tr.1 < T + (memorystore.New c).interval) →
      T + (memorystore.New c).interval ≤ 2 ^ 64 →
      ∃ o, (serveEach { keyFunc := eventKeyFunc unmarshal } next rfc1123
            (memorystore.New c) (pre ++ [(t, r2)]))[pre.length]? = some o ∧
        o.next = [(eventKeyFunc unmarshal r2).req] ∧ o.w.Code = 200 := by
  have hk : ∀ (r : Request) (e : Event), Decodes unmarshal r e →
      e.InvolvedObject = e1.InvolvedObject → e.Severity = e1.Severity →
      (eventKeyFunc unmarshal r).key ≠ (eventKeyFunc unmarshal r2).key := by
    intro r e hd hoe hve
    rw [eventKeyFunc_of_Decodes unmarshal r e hd, eventKeyFunc_of_Decodes unmarshal r2 e2 h2,
      hoe, hve, ho]
    exact fun h => hv (key_severity_cancel _ _ _ h)
  refine ⟨hk r1 e1 h1 rfl rfl, ?_⟩
  intro next rfc1123 c T pre t hnext hpre hsorted hwin hclock
  have hdec : ∀ tr ∈ pre ++ [(t, r2)], (eventKeyFunc unmarshal tr.2).err = none := by
    intro tr htr
    rcases List.mem_append.mp htr with h | h
    · obtain ⟨e, hd, _, _⟩ := hpre tr h
      exact eventKeyFunc_err_of_Decodes unmarshal tr.2 ⟨e, hd⟩
    · rw [List.mem_singleton.mp h]
      exact eventKeyFunc_err_of_Decodes unmarshal r2 ⟨e2, h2⟩
  have hzero : earlier (eventKeyFunc unmarshal) (pre ++ [(t, r2)]) pre.length
      (eventKeyFunc unmarshal r2).key = 0 := by
    unfold earlier
    rw [List.take_left', List.count_eq_zero]
    · intro hmem
      obtain ⟨tr, htr, hkey⟩ := List.mem_map.mp hmem
      obtain ⟨e, hd, hoe, hve⟩ := hpre tr htr
      exact hk tr.2 e hd hoe hve hkey
    · rfl
  exact serveEach_unseen_key { keyFunc := eventKeyFunc unmarshal } next rfc1123 hnext
    (pre ++ [(t, r2)]) (memorystore.New c) pre.length (t, r2) (New_tokens_pos c) hdec
    (by simp) rfl hzero

/-- C7 at the test table: the `info` and the `error` request for object `1`
have different keys, and after the two `info` requests the `error` request is
admitted. -/
theorem other_severity_has_its_own_bucket_witness :
    (eventKeyFunc sampleUnmarshal
        (post (eventJSON (mkEvent (testObject (str "1")) EventSeverityInfo [])))).key
      ≠ (eventKeyFunc sampleUnmarshal
        (post (eventJSON (mkEvent (testObject (str "1")) EventSeverityError [])))).key ∧
    ∃ o, (serveEach { keyFunc := eventKeyFunc sampleUnmarshal } testHandler FormatUint
          testStore (testRows.take 3))[2]? = some o ∧
      o.next = [(eventKeyFunc sampleUnmarshal
          (post (eventJSON (mkEvent (testObject (str "1")) EventSeverityError [])))).req] ∧
      o.w.Code = 200 := by
  have h := other_severity_has_its_own_bucket sampleUnmarshal
    (post (eventJSON (mkEvent (testObject (str "1")) EventSeverityInfo [])))
    (post (eventJSON (mkEvent (testObject (str "1")) EventSeverityError [])))
    (mkEvent (testObject (str "1")) EventSeverityInfo [])
    (mkEvent (testObject (str "1")) EventSeverityError [])
    ⟨rfl, by decide⟩ ⟨rfl, by decide⟩ rfl (by decide)
  refine ⟨h.1, ?_⟩
  exact h.2 testHandler FormatUint { Tokens := 0, Interval := 600 * Second } 0
    (testRows.take 2) (2 * Second) testHandler_Code
    (by
      intro tr htr
      have htr2 : tr = (0, post (eventJSON (mkEvent (testObject (str "1")) EventSeverityInfo [])))
          ∨ tr = (1 * Second,
            post (eventJSON (mkEvent (testObject (str "1")) EventSeverityInfo []))) := by
        simpa [testRows] using htr
      rcases htr2 with rfl | rfl
      · exact ⟨mkEvent (testObject (str "1")) EventSeverityInfo [], ⟨rfl, by decide⟩, rfl, rfl⟩
      · exact ⟨mkEvent (testObject (str "1")) EventSeverityInfo [], ⟨rfl, by decide⟩, rfl, rfl⟩)
    (by decide) (by decide) (by decide)

/-- C8, as the code has it: two decodable event requests whose involved-object
references agree in all seven fields (kind, namespace, name, uid, apiVersion,
resourceVersion, fieldPath) and whose severities are equal get byte-identical
keys, whatever the bytes of the two bodies and the other fields of the two
records. -/
theorem equal_reference_and_severity_same_key (unmarshal : Unmarshal) (r1 r2 : Request)
    (e1 e2 : Event) (h1 : Decodes unmarshal r1 e1) (h2 : Decodes unmarshal r2 e2)
    (ho : e1.InvolvedObject = e2.InvolvedObject) (hv : e1.Severity = e2.Severity) :
    (eventKeyFunc unmarshal r1).key = (eventKeyFunc unmarshal r2).key ∧
    (eventKeyFunc unmarshal r1).err = none ∧ (eventKeyFunc unmarshal r2).err = none := by
  rw [eventKeyFunc_of_Decodes unmarshal r1 e1 h1, eventKeyFunc_of_Decodes unmarshal r2 e2 h2,
    ho, hv]
  exact ⟨rfl, rfl, rfl⟩

/-- C8 at two bodies for the same object and severity with the JSON fields in
different orders and different messages. -/
theorem equal_reference_and_severity_same_key_witness :
    eventJSON (mkEvent (testObject (str "1")) EventSeverityInfo [])
      ≠ eventJSONSeverityFirst
          (mkEvent (testObject (str "1")) EventSeverityInfo (str "Health check passed")) ∧
    (eventKeyFunc sampleUnmarshal
        (post (eventJSON (mkEvent (testObject (str "1")) EventSeverityInfo [])))).key
      = (eventKeyFunc sampleUnmarshal
        (post (eventJSONSeverityFirst
          (mkEvent (testObject (str "1")) EventSeverityInfo (str "Health check passed"))))).key :=
  ⟨by decide,
    (equal_reference_and_severity_same_key sampleUnmarshal _ _
      (mkEvent (testObject (str "1")) EventSeverityInfo [])
      (mkEvent (testObject (str "1")) EventSeverityInfo (str "Health check passed"))
      ⟨rfl, by decide⟩ ⟨rfl, by decide⟩ rfl rfl).1⟩

/-- C8 as stated fails: two decodable requests for the same kind, namespace
and name and the same severity, whose references differ in the resource
version only, get different keys. -/
theorem resource_version_changes_key :
    Decodes sampleUnmarshal (post (eventJSON (mkEvent (atRevision (str "41")) EventSeverityInfo [])))
      (mkEvent (atRevision (str "41")) EventSeverityInfo []) ∧
    Decodes sampleUnmarshal (post (eventJSON (mkEvent (atRevision (str "42")) EventSeverityInfo [])))
      (mkEvent (atRevision (str "42")) EventSeverityInfo []) ∧
    (atRevision (str "41")).Kind = (atRevision (str "42")).Kind ∧
    (atRevision (str "41")).Namespace = (atRevision (str "42")).Namespace ∧
    (atRevision (str "41")).Name = (atRevision (str "42")).Name ∧
    (eventKeyFunc sampleUnmarshal
        (post (eventJSON (mkEvent (atRevision (str "41")) EventSeverityInfo [])))).key
      ≠ (eventKeyFunc sampleUnmarshal
        (post (eventJSON (mkEvent (atRevision (str "42")) EventSeverityInfo [])))).key := by
  refine ⟨⟨rfl, by decide⟩, ⟨rfl, by decide⟩, rfl, rfl, rfl, by decide⟩

/-! ## Claims about the webhook key -/

theorem TrimLeft_hook (s : GoString) :
    TrimLeft (str "/hook/" ++ s) (str "/hook/") = TrimLeft s (str "/hook/") := by
  rfl

/-- What `receiverKeyFunc` computes for the request URI `/hook/` + s: the
escaped form of s without its leading bytes among `/`, `h`, `o`, `k`. -/
theorem receiverKeyFunc_hook (s : GoString) :
    receiverKeyFunc (hook (str "/hook/" ++ s)) =
      { key := str "receiver/" ++ PathEscape (s.dropWhile (fun b => (str "/hook/").contains b)),
        err := none,
        req := hook (str "/hook/" ++ s) } := by
  simp only [receiverKeyFunc, hook, TrimLeft_hook]
  rfl

/-- C3 at the request URI `/hook/hook1`: `TrimLeft` takes the second argument
as a set of bytes, so the leading `hook` of the identifier `hook1` goes with
the path prefix, and the key is `receiver/1` where the claim has
`receiver/hook1`. -/
theorem receiverKeyFunc_eats_identifier_start :
    (receiverKeyFunc (hook (str "/hook/" ++ str "hook1"))).err = none ∧
    (receiverKeyFunc (hook (str "/hook/" ++ str "hook1"))).key = str "receiver/1" ∧
    str "receiver/" ++ PathEscape (str "hook1") = str "receiver/hook1" ∧
    (receiverKeyFunc (hook (str "/hook/" ++ str "hook1"))).key
      ≠ str "receiver/" ++ PathEscape (str "hook1") ∧
    str "receiver/" ++ PathEscape (TrimPrefix (str "/hook/" ++ str "hook1") (str "/hook/"))
      = str "receiver/hook1" := by
  decide

/-- C4 at the request URIs `/hook/k8s-prod` and `/hook/8s-prod`: the two
identifiers differ and both requests get the key `receiver/8s-prod`. -/
theorem receiverKeyFunc_merges_two_receivers :
    str "k8s-prod" ≠ str "8s-prod" ∧
    (receiverKeyFunc (hook (str "/hook/" ++ str "k8s-prod"))).key = str "receiver/8s-prod" ∧
    (receiverKeyFunc (hook (str "/hook/" ++ str "8s-prod"))).key = str "receiver/8s-prod" ∧
    (receiverKeyFunc (hook (str "/hook/" ++ str "k8s-prod"))).key
      = (receiverKeyFunc (hook (str "/hook/" ++ str "8s-prod"))).key := by
  decide

/-! ## Claims about the listener lifecycle -/

end NotificationController
